import Mathlib

/-!
Verification of `src/storage/additional_checksum_verify.rs` (s3sync).

The three exported functions — `generate_checksum_from_path`,
`generate_checksum_from_path_for_check` and
`generate_checksum_from_path_with_chunksize` — are embedded shallowly.
Files are byte lists together with a fault schedule for the sequential
reader; the hash accumulator `AdditionalChecksum` lives in
`crate::storage::checksum`, outside the provided sources, and is modelled
from the spec (section 4.1).  The per-part hash function itself is an
opaque capability and is therefore a parameter of every definition.
-/

set_option autoImplicit false

namespace S3SyncChecksum

/-- The closed algorithm enumeration (`aws_sdk_s3::types::ChecksumAlgorithm`);
an opaque selector passed through to the accumulator. -/
inductive ChecksumAlgorithm where
  | crc32
  | crc32c
  | crc64nvme
  | sha1
  | sha256
  deriving DecidableEq

/-- Kind of an I/O failure of a read: `std::io::ErrorKind::UnexpectedEof`
versus every other kind (permission, hardware, ...), abstracted by a code. -/
inductive ErrorKind where
  | unexpectedEof
  | other (code : Nat)
  deriving DecidableEq

/-- Outcome of one `read_exact` call: the bytes read, or an I/O error. -/
inductive ReadOutcome where
  | ok (bytes : List Nat)
  | error (kind : ErrorKind)
  deriving DecidableEq

/-- Result of a checksum computation: `Ok(string)` (digest or the sentinel
"UNKNOWN"), a propagated error (`Err`), or a process-aborting `panic!`. -/
inductive Outcome where
  | ok (s : String)
  | err (kind : ErrorKind)
  | panicked (msg : String)
  deriving DecidableEq

/-- The standard base64 alphabet. -/
def base64Table : List Char :=
  "ABCDEFGHIJKLMNOPQRSTUVWXYZabcdefghijklmnopqrstuvwxyz0123456789+/".toList

/-- Character for a 6-bit group. -/
def base64Char (n : Nat) : Char := base64Table.getD n 'A'

/-- Base64-encode a byte list, three bytes to four characters, '='-padded. -/
def base64Chunks : List Nat → List Char
  | [] => []
  | [b0] =>
      [base64Char (b0 / 4), base64Char (b0 % 4 * 16), '=', '=']
  | [b0, b1] =>
      [base64Char (b0 / 4), base64Char (b0 % 4 * 16 + b1 / 16),
       base64Char (b1 % 16 * 4), '=']
  | b0 :: b1 :: b2 :: rest =>
      base64Char (b0 / 4) :: base64Char (b0 % 4 * 16 + b1 / 16) ::
      base64Char (b1 % 16 * 4 + b2 / 64) :: base64Char (b2 % 64) ::
      base64Chunks rest

/-- Base64 encoding as a string. -/
def base64Str (bs : List Nat) : String := String.mk (base64Chunks bs)

/-- The opaque per-part hash capability: algorithm selector and bytes to the
raw (non-encoded) hash output. -/
abbrev HashFn := ChecksumAlgorithm → List Nat → List Nat

/-- Modelled from the spec: the hash-accumulator state of
`crate::storage::checksum::AdditionalChecksum`, which is not among the
provided sources.  It owns the algorithm selection, the bytes fed into the
current part, the concatenation of the raw per-part hash outputs collected
since creation, and the number of parts finalized so far (section 4.1). -/
structure AdditionalChecksum where
  algorithm : ChecksumAlgorithm
  current : List Nat
  rawParts : List Nat
  finalizedCount : Nat
  deriving DecidableEq

/-- Modelled from the spec: `AdditionalChecksum::new(algorithm)` creates
fresh state. -/
def AdditionalChecksum.new (alg : ChecksumAlgorithm) : AdditionalChecksum :=
  ⟨alg, [], [], 0⟩

/-- Modelled from the spec: `update(bytes)` feeds bytes into the current
part's running hash. -/
def AdditionalChecksum.update (c : AdditionalChecksum) (bytes : List Nat) :
    AdditionalChecksum :=
  { c with current := c.current ++ bytes }

/-- Modelled from the spec: `finalize()` closes the current part, returns its
base64 digest, and resets the running state for the next part. -/
def AdditionalChecksum.finalize (c : AdditionalChecksum) (hash : HashFn) :
    String × AdditionalChecksum :=
  let raw := hash c.algorithm c.current
  (base64Str raw,
   { c with current := [], rawParts := c.rawParts ++ raw,
            finalizedCount := c.finalizedCount + 1 })

/-- Modelled from the spec: `finalize_all()` hashes the concatenation of the
raw per-part hash outputs and appends "-N", N the number of parts
finalized. -/
def AdditionalChecksum.finalizeAll (c : AdditionalChecksum) (hash : HashFn) :
    String :=
  base64Str (hash c.algorithm c.rawParts) ++ "-" ++ Nat.repr c.finalizedCount

/-- Modelled from the spec: the sequential byte source (`tokio::fs::File`,
an external collaborator).  `contents` is the byte content, whose length is
what the metadata query reports; `faults` injects, per read-operation index,
an optional I/O failure in place of the data (the file abstraction of
section 6 must be able to fail with any error kind). -/
structure FileSource where
  contents : List Nat
  faults : List (Option ErrorKind)

/-- A file that reads without injected faults. -/
def pureFile (contents : List Nat) : FileSource := ⟨contents, []⟩

/-- Embedding of `read_exact` into a buffer of `n` bytes: the `readIdx`-th
read of the source at byte position `pos`.  An injected fault fires if scheduled;
otherwise the read succeeds exactly when `n` bytes remain, and reports
`UnexpectedEof` when the stream ends early. -/
def readExact (src : FileSource) (pos readIdx n : Nat) : ReadOutcome :=
  match src.faults.getD readIdx none with
  | some k => ReadOutcome.error k
  | none =>
      if pos + n ≤ src.contents.length then
        ReadOutcome.ok ((src.contents.drop pos).take n)
      else
        ReadOutcome.error ErrorKind.unexpectedEof

/-- The wrapping `usize as i64` cast of line 28: the 64-bit pattern is
reinterpreted as signed, so values whose low 64 bits are at least 2^63
become negative. -/
def usizeAsI64 (n : Nat) : Int :=
  if n % 2 ^ 64 < 2 ^ 63 then (n % 2 ^ 64 : Int)
  else (n % 2 ^ 64 : Int) - 2 ^ 64

/-- Mode selection of `generate_checksum_from_path` (lines 27-28):
`parts_count > 1 || (parts_count == 1 && multipart_threshold as i64 <=
object_parts[0])`, the threshold comparison performed in i64 after the
wrapping cast. -/
def multipartMode (object_parts : List Nat) (multipart_threshold : Nat) :
    Bool :=
  decide (1 < object_parts.length) ||
    (decide (object_parts.length = 1) &&
      decide (usizeAsI64 multipart_threshold ≤ (object_parts.headD 0 : Int)))

/-- The read/accumulate loop shared by both declared-parts functions
(lines 31-60 and 82-111): for each declared chunk size, an exact read; a
non-EOF failure propagates, EOF returns the sentinel; on success the bytes
are fed (`update`) and the part closed (`finalize`).  After the loop the
bytes actually read are compared with the metadata length, then the mode
decides between the last part's digest and `finalize_all()`. -/
def partsLoop (hash : HashFn) (src : FileSource) (pos readIdx readBytes : Nat)
    (acc : AdditionalChecksum) (lastHash : String) (fileSize : Nat)
    (multipart : Bool) : List Nat → Outcome
  | [] =>
      if readBytes ≠ fileSize then Outcome.ok "UNKNOWN"
      else if !multipart then Outcome.ok lastHash
      else Outcome.ok (acc.finalizeAll hash)
  | chunksize :: rest =>
      match readExact src pos readIdx chunksize with
      | ReadOutcome.error k =>
          if k ≠ ErrorKind.unexpectedEof then Outcome.err k
          else Outcome.ok "UNKNOWN"
      | ReadOutcome.ok bytes =>
          let fin := (acc.update bytes).finalize hash
          partsLoop hash src (pos + chunksize) (readIdx + 1)
            (readBytes + chunksize) fin.2 fin.1 fileSize multipart rest

/-- Embedding of `generate_checksum_from_path(path, checksum_algorithm,
object_parts, multipart_threshold)` (lines 12-61).  Part sizes are byte counts, so the
`Vec<i64>` of sizes is carried as `List Nat`. -/
def generate_checksum_from_path (hash : HashFn) (src : FileSource)
    (checksum_algorithm : ChecksumAlgorithm) (object_parts : List Nat)
    (multipart_threshold : Nat) : Outcome :=
  if object_parts.isEmpty then Outcome.panicked "parts_size is empty"
  else
    partsLoop hash src 0 0 0 (AdditionalChecksum.new checksum_algorithm) ""
      src.contents.length (multipartMode object_parts multipart_threshold)
      object_parts

/-- Embedding of `generate_checksum_from_path_for_check(path,
checksum_algorithm, multipart, object_parts)` (lines 63-112): same loop,
but the multipart flag is supplied by the caller, with an extra
precondition check. -/
def generate_checksum_from_path_for_check (hash : HashFn) (src : FileSource)
    (checksum_algorithm : ChecksumAlgorithm) (multipart : Bool)
    (object_parts : List Nat) : Outcome :=
  if object_parts.isEmpty then Outcome.panicked "parts_size is empty"
  else if !multipart && decide (2 ≤ object_parts.length) then
    Outcome.panicked "multipart is false but object_parts has more than 1 element"
  else
    partsLoop hash src 0 0 0 (AdditionalChecksum.new checksum_algorithm) ""
      src.contents.length multipart object_parts

/-- The `while 0 < remaining_bytes` loop of
`generate_checksum_from_path_with_chunksize` (lines 134-148), with explicit
fuel since the source loop need not terminate for every chunk size.  `?` on
`read_exact` propagates every failure, EOF included. -/
def chunksizeLoop (hash : HashFn) (src : FileSource)
    (multipart_chunksize : Nat) (remaining pos readIdx : Nat)
    (acc : AdditionalChecksum) : Nat → Option Outcome
  | 0 => none
  | fuel + 1 =>
      if 0 < remaining then
        let real_chunksize :=
          if remaining < multipart_chunksize then remaining
          else multipart_chunksize
        match readExact src pos readIdx real_chunksize with
        | ReadOutcome.error k => some (Outcome.err k)
        | ReadOutcome.ok bytes =>
            chunksizeLoop hash src multipart_chunksize
              (remaining - real_chunksize) (pos + real_chunksize)
              (readIdx + 1) ((acc.update bytes).finalize hash).2 fuel
      else some (Outcome.ok (acc.finalizeAll hash))

/-- Embedding of `generate_checksum_from_path_with_chunksize(path,
checksum_algorithm, multipart_chunksize, multipart_threshold)`
(lines 114-151).  `none` means
the while loop ran out of fuel, i.e. the source diverges. -/
def generate_checksum_from_path_with_chunksize (hash : HashFn)
    (src : FileSource) (checksum_algorithm : ChecksumAlgorithm)
    (multipart_chunksize multipart_threshold : Nat) (fuel : Nat) :
    Option Outcome :=
  let remaining_bytes := src.contents.length
  let acc := AdditionalChecksum.new checksum_algorithm
  if remaining_bytes < multipart_threshold then
    match readExact src 0 0 remaining_bytes with
    | ReadOutcome.error k => some (Outcome.err k)
    | ReadOutcome.ok bytes =>
        some (Outcome.ok ((acc.update bytes).finalize hash).1)
  else
    chunksizeLoop hash src multipart_chunksize remaining_bytes 0 0 acc fuel

/-- Accumulator trace of `partsLoop` on a fault-free run: final accumulator
state and last `finalize()` digest after feeding the declared chunks of
`contents` starting at `pos`. -/
def runParts (hash : HashFn) (contents : List Nat) (pos : Nat)
    (acc : AdditionalChecksum) (lastHash : String) :
    List Nat → AdditionalChecksum × String
  | [] => (acc, lastHash)
  | n :: rest =>
      let fin := (acc.update ((contents.drop pos).take n)).finalize hash
      runParts hash contents (pos + n) fin.2 fin.1 rest

/-- A hash capability whose raw output is always empty; used to instantiate
theorems at concrete inputs. -/
def trivialHash : HashFn := fun _ _ => []

/-- An outcome that is neither the sentinel `"UNKNOWN"` nor a panic. -/
def notUnknownOutcome (r : Outcome) : Prop :=
  (∀ s, r = Outcome.ok s → s ≠ "UNKNOWN") ∧ ∀ m, r ≠ Outcome.panicked m

/-- The length of a base64 encoding is a multiple of four. -/
theorem base64Chunks_length_mod (bs : List Nat) :
    (base64Chunks bs).length % 4 = 0 := by
  match bs with
  | [] => rfl
  | [_] => simp [base64Chunks]
  | [_, _] => simp [base64Chunks]
  | b0 :: b1 :: b2 :: rest =>
      have ih := base64Chunks_length_mod rest
      simp only [base64Chunks, List.length_cons]
      omega

/-- A base64 digest is never the sentinel: its length is a multiple of four
while "UNKNOWN" has length seven. -/
theorem base64Str_ne_unknown (bs : List Nat) : base64Str bs ≠ "UNKNOWN" := by
  intro h
  have h4 : (base64Str bs).length % 4 = 0 := base64Chunks_length_mod bs
  rw [h] at h4
  exact absurd h4 (by decide)

/-- A composite `finalize_all()` string contains a dash, so it is never the
sentinel. -/
theorem finalizeAll_ne_unknown (c : AdditionalChecksum) (hash : HashFn) :
    c.finalizeAll hash ≠ "UNKNOWN" := by
  intro h
  have hmem : '-' ∈ (c.finalizeAll hash).data := by
    simp only [AdditionalChecksum.finalizeAll, String.data_append]
    exact List.mem_append.mpr (Or.inl (List.mem_append.mpr (Or.inr (by decide))))
  rw [h] at hmem
  exact absurd hmem (by decide)

/-- On a fault-free file, the shared loop returns "UNKNOWN" exactly when the
declared sizes do not account for the whole remaining file, and otherwise
finishes with the accumulator trace `runParts` and the mode branch
(`readBytes` equals the starting position on entry). -/
theorem partsLoop_pure (hash : HashFn) (c : List Nat) (parts : List Nat)
    (pos idx : Nat) (acc : AdditionalChecksum) (last : String) (mp : Bool)
    (hpos : pos ≤ c.length) :
    partsLoop hash (pureFile c) pos idx pos acc last c.length mp parts =
      if pos + parts.sum = c.length then
        (if !mp then Outcome.ok (runParts hash c pos acc last parts).2
         else
           Outcome.ok ((runParts hash c pos acc last parts).1.finalizeAll hash))
      else Outcome.ok "UNKNOWN" := by
  induction parts generalizing pos idx acc last with
  | nil =>
      by_cases h : pos = c.length
      · simp [partsLoop, runParts, h]
      · simp [partsLoop, runParts, h]
  | cons n rest ih =>
      by_cases hread : pos + n ≤ c.length
      · have hstep :
            readExact (pureFile c) pos idx n =
              ReadOutcome.ok ((c.drop pos).take n) := by
          simp [readExact, pureFile, hread]
        simp only [partsLoop, hstep]
        rw [ih (pos + n) (idx + 1) _ _ hread]
        simp only [runParts, List.sum_cons]
        by_cases hsum : pos + (n + rest.sum) = c.length
        · have hsum2 : pos + n + rest.sum = c.length := by omega
          simp [hsum, hsum2]
        · have hsum2 : ¬ pos + n + rest.sum = c.length := by omega
          simp [hsum, hsum2]
      · have hstep :
            readExact (pureFile c) pos idx n =
              ReadOutcome.error ErrorKind.unexpectedEof := by
          simp [readExact, pureFile, hread]
        have hsum : ¬ pos + (n + rest.sum) = c.length := by omega
        simp only [partsLoop, hstep, List.sum_cons]
        rw [if_neg hsum]
        simp

/-- The last `finalize()` digest of a fault-free run over a non-empty plan is
the plain base64 digest of the final declared chunk (accumulator entered
with an empty current part). -/
theorem runParts_snd_concat (hash : HashFn) (c : List Nat) (ps : List Nat)
    (n : Nat) :
    ∀ (pos : Nat) (acc : AdditionalChecksum) (last : String),
      acc.current = [] →
      (runParts hash c pos acc last (ps ++ [n])).2 =
        base64Str (hash acc.algorithm ((c.drop (pos + ps.sum)).take n)) := by
  induction ps with
  | nil =>
      intro pos acc last hcur
      simp [runParts, AdditionalChecksum.update, AdditionalChecksum.finalize,
        hcur]
  | cons m rest ih =>
      intro pos acc last hcur
      simp only [List.cons_append, runParts, List.append_eq]
      rw [ih]
      · simp only [AdditionalChecksum.finalize, AdditionalChecksum.update,
          List.sum_cons]
        rw [Nat.add_assoc]
      · rfl

/-- With a positive chunk size the while loop terminates within
`remaining + 1` iterations, and its outcome is never the sentinel and never
a panic. -/
theorem chunksizeLoop_some (hash : HashFn) (src : FileSource) (chunk : Nat)
    (hchunk : 0 < chunk) :
    ∀ (fuel remaining pos idx : Nat) (acc : AdditionalChecksum),
      remaining < fuel →
      ∃ r, chunksizeLoop hash src chunk remaining pos idx acc fuel = some r ∧
        notUnknownOutcome r := by
  intro fuel
  induction fuel with
  | zero => intro remaining pos idx acc h; omega
  | succ fuel ih =>
      intro remaining pos idx acc h
      by_cases hr : 0 < remaining
      · simp only [chunksizeLoop, if_pos hr]
        cases hread :
            readExact src pos idx (if remaining < chunk then remaining else chunk) with
        | error k =>
            refine ⟨Outcome.err k, by simp [hread], ?_, ?_⟩
            · intro s hs; cases hs
            · intro m hm; cases hm
        | ok bytes =>
            have hless :
                remaining - (if remaining < chunk then remaining else chunk) <
                  fuel := by
              split <;> omega
            obtain ⟨r, hr1, hr2⟩ :=
              ih (remaining - (if remaining < chunk then remaining else chunk))
                (pos + (if remaining < chunk then remaining else chunk))
                (idx + 1) ((acc.update bytes).finalize hash).2 hless
            exact ⟨r, hr1, hr2⟩
      · simp only [chunksizeLoop, if_neg hr]
        refine ⟨Outcome.ok (acc.finalizeAll hash), rfl, ?_, ?_⟩
        · intro s hs
          cases hs
          exact finalizeAll_ne_unknown acc hash
        · intro m hm; cases hm

/-- With chunk size zero and bytes still remaining, the while loop of the
fixed-chunking path makes no progress: it exhausts any fuel. -/
theorem chunksizeLoop_zero_chunk (hash : HashFn) (c : List Nat)
    (remaining : Nat) (hrem : 0 < remaining) :
    ∀ (fuel idx : Nat) (acc : AdditionalChecksum) (pos : Nat),
      pos ≤ c.length →
      chunksizeLoop hash (pureFile c) 0 remaining pos idx acc fuel = none := by
  intro fuel
  induction fuel with
  | zero => intro idx acc pos _; rfl
  | succ fuel ih =>
      intro idx acc pos hpos
      have hreal : (if remaining < 0 then remaining else 0) = 0 := by simp
      have hread : readExact (pureFile c) pos idx 0 =
          ReadOutcome.ok ((c.drop pos).take 0) := by
        simp [readExact, pureFile, hpos]
      simp only [chunksizeLoop, if_pos hrem, hreal, hread]
      have hrec :=
        ih (idx + 1) ((acc.update ((c.drop pos).take 0)).finalize hash).2 pos
          hpos
      simpa using hrec

/-- On a fault-free file whose declared sizes sum to the length, the derived
mode path finishes with the mode branch over the accumulator trace. -/
theorem generate_checksum_from_path_success (hash : HashFn) (c : List Nat)
    (alg : ChecksumAlgorithm) (parts : List Nat) (thr : Nat)
    (hne : parts ≠ []) (hsum : parts.sum = c.length) :
    generate_checksum_from_path hash (pureFile c) alg parts thr =
      if !multipartMode parts thr then
        Outcome.ok (runParts hash c 0 (AdditionalChecksum.new alg) "" parts).2
      else
        Outcome.ok
          ((runParts hash c 0
              (AdditionalChecksum.new alg) "" parts).1.finalizeAll hash) := by
  obtain ⟨p, ps, rfl⟩ := List.exists_cons_of_ne_nil hne
  simp only [generate_checksum_from_path, List.isEmpty_cons, Bool.false_eq_true,
    if_false]
  show partsLoop hash (pureFile c) 0 0 0 (AdditionalChecksum.new alg) ""
      c.length (multipartMode (p :: ps) thr) (p :: ps) = _
  rw [partsLoop_pure hash c (p :: ps) 0 0 (AdditionalChecksum.new alg) ""
    (multipartMode (p :: ps) thr) (Nat.zero_le _)]
  rw [if_pos (by simpa using hsum)]

/-- On a fault-free file whose declared sizes do not sum to the length, the
derived mode path returns the sentinel. -/
theorem generate_checksum_from_path_mismatch (hash : HashFn) (c : List Nat)
    (alg : ChecksumAlgorithm) (parts : List Nat) (thr : Nat)
    (hne : parts ≠ []) (hsum : parts.sum ≠ c.length) :
    generate_checksum_from_path hash (pureFile c) alg parts thr =
      Outcome.ok "UNKNOWN" := by
  obtain ⟨p, ps, rfl⟩ := List.exists_cons_of_ne_nil hne
  simp only [generate_checksum_from_path, List.isEmpty_cons, Bool.false_eq_true,
    if_false]
  show partsLoop hash (pureFile c) 0 0 0 (AdditionalChecksum.new alg) ""
      c.length (multipartMode (p :: ps) thr) (p :: ps) = _
  rw [partsLoop_pure hash c (p :: ps) 0 0 (AdditionalChecksum.new alg) ""
    (multipartMode (p :: ps) thr) (Nat.zero_le _)]
  rw [if_neg (by simpa using hsum)]

/-- Explicit-mode analogue of `generate_checksum_from_path_success`, under
the documented precondition on the flag. -/
theorem generate_checksum_for_check_success (hash : HashFn) (c : List Nat)
    (alg : ChecksumAlgorithm) (mp : Bool) (parts : List Nat)
    (hne : parts ≠ []) (hpre : mp = true ∨ parts.length ≤ 1)
    (hsum : parts.sum = c.length) :
    generate_checksum_from_path_for_check hash (pureFile c) alg mp parts =
      if !mp then
        Outcome.ok (runParts hash c 0 (AdditionalChecksum.new alg) "" parts).2
      else
        Outcome.ok
          ((runParts hash c 0
              (AdditionalChecksum.new alg) "" parts).1.finalizeAll hash) := by
  obtain ⟨p, ps, rfl⟩ := List.exists_cons_of_ne_nil hne
  have hguard : (!mp && decide (2 ≤ (p :: ps).length)) = false := by
    rcases hpre with h | h
    · subst h; rfl
    · cases mp
      · simp only [Bool.not_false, Bool.true_and, decide_eq_false_iff_not]
        omega
      · rfl
  simp only [generate_checksum_from_path_for_check, List.isEmpty_cons,
    Bool.false_eq_true, if_false, hguard]
  show partsLoop hash (pureFile c) 0 0 0 (AdditionalChecksum.new alg) ""
      c.length mp (p :: ps) = _
  rw [partsLoop_pure hash c (p :: ps) 0 0 (AdditionalChecksum.new alg) "" mp
    (Nat.zero_le _)]
  rw [if_pos (by simpa using hsum)]

/-- Explicit-mode analogue of `generate_checksum_from_path_mismatch`. -/
theorem generate_checksum_for_check_mismatch (hash : HashFn) (c : List Nat)
    (alg : ChecksumAlgorithm) (mp : Bool) (parts : List Nat)
    (hne : parts ≠ []) (hpre : mp = true ∨ parts.length ≤ 1)
    (hsum : parts.sum ≠ c.length) :
    generate_checksum_from_path_for_check hash (pureFile c) alg mp parts =
      Outcome.ok "UNKNOWN" := by
  obtain ⟨p, ps, rfl⟩ := List.exists_cons_of_ne_nil hne
  have hguard : (!mp && decide (2 ≤ (p :: ps).length)) = false := by
    rcases hpre with h | h
    · subst h; rfl
    · cases mp
      · simp only [Bool.not_false, Bool.true_and, decide_eq_false_iff_not]
        omega
      · rfl
  simp only [generate_checksum_from_path_for_check, List.isEmpty_cons,
    Bool.false_eq_true, if_false, hguard]
  show partsLoop hash (pureFile c) 0 0 0 (AdditionalChecksum.new alg) ""
      c.length mp (p :: ps) = _
  rw [partsLoop_pure hash c (p :: ps) 0 0 (AdditionalChecksum.new alg) "" mp
    (Nat.zero_le _)]
  rw [if_neg (by simpa using hsum)]

/-- The 9 MiB run with a single declared part of 9 MiB and threshold 9 MiB:
mode resolves to multipart, so the returned string is `finalize_all()` with
part count 1. -/
theorem threshold_single_part_run (hash : HashFn) :
    generate_checksum_from_path hash (pureFile (List.replicate 9437184 0))
        ChecksumAlgorithm.sha256 [9437184] 9437184 =
      Outcome.ok
        (base64Str
            (hash ChecksumAlgorithm.sha256
              (hash ChecksumAlgorithm.sha256 (List.replicate 9437184 0))) ++
          "-" ++ Nat.repr 1) := by
  have hslice : ((List.replicate 9437184 (0 : Nat)).drop 0).take 9437184 =
      List.replicate 9437184 0 := by
    rw [List.drop_zero, List.take_replicate, Nat.min_self]
  rw [generate_checksum_from_path_success hash (List.replicate 9437184 0)
    ChecksumAlgorithm.sha256 [9437184] 9437184 (List.cons_ne_nil _ _)
    (by rw [List.length_replicate]; simp)]
  have hmp : multipartMode [9437184] 9437184 = true := by decide
  rw [hmp]
  simp only [Bool.not_true, Bool.false_eq_true, if_false, runParts, hslice,
    AdditionalChecksum.new, AdditionalChecksum.update,
    AdditionalChecksum.finalize, AdditionalChecksum.finalizeAll,
    List.nil_append, List.append_nil, Nat.zero_add]

/-- C1: counterexample.  For the 9 MiB zero file, a single declared part of
9 MiB and a multipart threshold of 9 MiB, the claim says the result is a
plain digest with no "-N" suffix; with the hash capability whose raw output
is empty the code returns exactly "-1", which is a composite string and is
not the base64 digest of anything (mode resolves to multipart because the
part size is greater than or equal to the threshold). -/
theorem c1_single_part_at_threshold_counterexample :
    generate_checksum_from_path trivialHash
        (pureFile (List.replicate 9437184 0)) ChecksumAlgorithm.sha256
        [9437184] 9437184 = Outcome.ok "-1" ∧
    ¬ ∃ bs, ("-1" : String) = base64Str bs := by
  constructor
  · rw [threshold_single_part_run trivialHash]
    simp only [trivialHash]
    decide
  · rintro ⟨bs, hb⟩
    have h4 := base64Chunks_length_mod bs
    have h2 : ("-1" : String).length % 4 = 0 := by
      rw [hb]; exact h4
    exact absurd h2 (by decide)

/-- C1 (amended): for a 9 MiB file verified with a single declared part of
9 MiB and a multipart threshold of 9 MiB, mode resolves to multipart (the
part size is ≥ the threshold), so the result is the composite
`finalize_all()` digest with suffix "-1", not a plain digest. -/
theorem c1_single_part_at_threshold_is_composite (hash : HashFn) :
    generate_checksum_from_path hash (pureFile (List.replicate 9437184 0))
        ChecksumAlgorithm.sha256 [9437184] 9437184 =
      Outcome.ok
        (base64Str
            (hash ChecksumAlgorithm.sha256
              (hash ChecksumAlgorithm.sha256 (List.replicate 9437184 0))) ++
          "-" ++ Nat.repr 1) :=
  threshold_single_part_run hash

/-- C2: counterexample.  The claim reads line 28's comparison as a plain
"single part's size ≥ threshold" for every threshold, but the source casts
the usize threshold to i64 with wrapping: at threshold 2^63 with the single
part [1] the cast is negative, the program selects multipart and returns a
composite (with the trivial hash, exactly "-1"), while the claim's rule
says single-part mode and a plain digest. -/
theorem c2_mode_invariant_counterexample :
    generate_checksum_from_path trivialHash (pureFile [7])
        ChecksumAlgorithm.sha256 [1] (2 ^ 63) = Outcome.ok "-1" ∧
    multipartMode [1] (2 ^ 63) = true ∧
    ¬ (1 < ([1] : List Nat).length ∨
        (([1] : List Nat).length = 1 ∧ 2 ^ 63 ≤ ([1] : List Nat).headD 0)) := by
  refine ⟨?_, by decide, by decide⟩
  rw [generate_checksum_from_path_success trivialHash [7]
    ChecksumAlgorithm.sha256 [1] (2 ^ 63) (by decide) (by decide)]
  have hmp : multipartMode [1] (2 ^ 63) = true := by decide
  rw [hmp]
  simp only [Bool.not_true, Bool.false_eq_true, if_false]
  simp only [runParts, AdditionalChecksum.new, AdditionalChecksum.update,
    AdditionalChecksum.finalize, AdditionalChecksum.finalizeAll, trivialHash]
  decide

/-- C2 (amended): for every non-empty part list and threshold, multipart
mode holds iff the part count exceeds one, or it is one and the single
part's size is at least the threshold under the source's wrapping
usize-to-i64 cast (so thresholds whose low 64 bits reach 2^63 compare as
negative and always select multipart); when the plan sums to the file
length, single-part mode returns the last part's plain `finalize()` digest
and multipart mode returns `finalize_all()` (the last digest being the
base64 digest of the final declared chunk). -/
theorem c2_mode_invariant_and_return_value (hash : HashFn) (c : List Nat)
    (alg : ChecksumAlgorithm) (parts : List Nat) (thr : Nat)
    (hne : parts ≠ []) :
    (multipartMode parts thr = true ↔
      1 < parts.length ∨
        (parts.length = 1 ∧ usizeAsI64 thr ≤ (parts.headD 0 : Int))) ∧
    (parts.sum = c.length →
      generate_checksum_from_path hash (pureFile c) alg parts thr =
        if multipartMode parts thr then
          Outcome.ok
            ((runParts hash c 0
                (AdditionalChecksum.new alg) "" parts).1.finalizeAll hash)
        else
          Outcome.ok
            (runParts hash c 0 (AdditionalChecksum.new alg) "" parts).2) ∧
    (∀ ps n, parts = ps ++ [n] →
      (runParts hash c 0 (AdditionalChecksum.new alg) "" parts).2 =
        base64Str (hash alg ((c.drop ps.sum).take n))) := by
  refine ⟨?_, ?_, ?_⟩
  · simp [multipartMode]
  · intro hsum
    rw [generate_checksum_from_path_success hash c alg parts thr hne hsum]
    cases hmp : multipartMode parts thr <;> simp [hmp]
  · intro ps n hp
    subst hp
    simpa using
      runParts_snd_concat hash c ps n 0 (AdditionalChecksum.new alg) "" rfl

/-- C2 witness at a concrete input. -/
theorem c2_mode_invariant_and_return_value_witness :
    ([1, 1] : List Nat) ≠ [] ∧
    ((multipartMode [1, 1] 5 = true ↔
      1 < ([1, 1] : List Nat).length ∨
        (([1, 1] : List Nat).length = 1 ∧
          usizeAsI64 5 ≤ (([1, 1] : List Nat).headD 0 : Int))) ∧
    (([1, 1] : List Nat).sum = ([3, 4] : List Nat).length →
      generate_checksum_from_path trivialHash (pureFile [3, 4])
          ChecksumAlgorithm.sha256 [1, 1] 5 =
        if multipartMode [1, 1] 5 then
          Outcome.ok
            ((runParts trivialHash [3, 4] 0
                (AdditionalChecksum.new ChecksumAlgorithm.sha256) ""
                [1, 1]).1.finalizeAll trivialHash)
        else
          Outcome.ok
            (runParts trivialHash [3, 4] 0
              (AdditionalChecksum.new ChecksumAlgorithm.sha256) ""
              [1, 1]).2) ∧
    (∀ ps n, ([1, 1] : List Nat) = ps ++ [n] →
      (runParts trivialHash [3, 4] 0
          (AdditionalChecksum.new ChecksumAlgorithm.sha256) "" [1, 1]).2 =
        base64Str (trivialHash ChecksumAlgorithm.sha256
          (([3, 4] : List Nat).drop ps.sum |>.take n)))) :=
  ⟨by decide,
   c2_mode_invariant_and_return_value trivialHash [3, 4]
     ChecksumAlgorithm.sha256 [1, 1] 5 (by decide)⟩

/-- C3: for every non-empty plan whose size sum differs from the file
length in either direction, both declared-parts functions return the
sentinel "UNKNOWN" as a normal return value (the explicit-mode function
under its documented flag precondition). -/
theorem c3_size_mismatch_returns_unknown (hash : HashFn) (c : List Nat)
    (alg : ChecksumAlgorithm) (parts : List Nat) (thr : Nat)
    (hne : parts ≠ []) (hsum : parts.sum ≠ c.length) :
    generate_checksum_from_path hash (pureFile c) alg parts thr =
      Outcome.ok "UNKNOWN" ∧
    ∀ mp : Bool, (mp = true ∨ parts.length ≤ 1) →
      generate_checksum_from_path_for_check hash (pureFile c) alg mp parts =
        Outcome.ok "UNKNOWN" := by
  refine ⟨generate_checksum_from_path_mismatch hash c alg parts thr hne hsum,
    ?_⟩
  intro mp hpre
  exact generate_checksum_for_check_mismatch hash c alg mp parts hne hpre hsum

/-- Below the threshold, the fixed-chunking path is a single exact read of
the full length followed by one `update` and one `finalize`. -/
theorem chunksize_below_threshold (hash : HashFn) (src : FileSource)
    (alg : ChecksumAlgorithm) (chunk thr fuel : Nat)
    (h : src.contents.length < thr) :
    generate_checksum_from_path_with_chunksize hash src alg chunk thr fuel =
      match readExact src 0 0 src.contents.length with
      | ReadOutcome.error k => some (Outcome.err k)
      | ReadOutcome.ok bytes =>
          some (Outcome.ok
            (((AdditionalChecksum.new alg).update bytes).finalize hash).1) := by
  simp only [generate_checksum_from_path_with_chunksize, if_pos h]

/-- C4: counterexample.  With chunk size 0, threshold 0 and a one-byte
file, the while loop of the fixed-chunking path never decreases the
remaining count, so the function terminates for no amount of fuel: the
claim's "for every file, chunk size, and threshold the read loop
terminates" is false. -/
theorem c4_zero_chunksize_counterexample :
    ¬ ∃ (fuel : Nat) (r : Outcome),
        generate_checksum_from_path_with_chunksize trivialHash (pureFile [0])
          ChecksumAlgorithm.sha256 0 0 fuel = some r := by
  rintro ⟨fuel, r, h⟩
  have hgen : generate_checksum_from_path_with_chunksize trivialHash
      (pureFile [0]) ChecksumAlgorithm.sha256 0 0 fuel =
      chunksizeLoop trivialHash (pureFile [0]) 0 1 0 0
        (AdditionalChecksum.new ChecksumAlgorithm.sha256) fuel := rfl
  rw [hgen] at h
  rw [chunksizeLoop_zero_chunk trivialHash [0] 1 (by omega) fuel 0
    (AdditionalChecksum.new ChecksumAlgorithm.sha256) 0 (by simp)] at h
  cases h

/-- C4 (amended): for every file and threshold and every positive chunk
size, the fixed-chunking path terminates (fuel one more than the file
length suffices, the loop stopping exactly when the remaining count is
zero), and it never returns the sentinel "UNKNOWN" and never panics: its
only non-digest outcome is a propagated I/O failure. -/
theorem c4_positive_chunksize_terminates (hash : HashFn) (src : FileSource)
    (alg : ChecksumAlgorithm) (chunk thr : Nat) (hchunk : 0 < chunk) :
    ∃ r, generate_checksum_from_path_with_chunksize hash src alg chunk thr
        (src.contents.length + 1) = some r ∧ notUnknownOutcome r := by
  by_cases hthr : src.contents.length < thr
  · rw [chunksize_below_threshold hash src alg chunk thr _ hthr]
    cases hread : readExact src 0 0 src.contents.length with
    | error k =>
        refine ⟨Outcome.err k, rfl, ?_, ?_⟩
        · intro s hs; cases hs
        · intro m hm; cases hm
    | ok bytes =>
        refine ⟨_, rfl, ?_, ?_⟩
        · intro s hs
          rw [Outcome.ok.injEq] at hs
          subst hs
          exact base64Str_ne_unknown _
        · intro m hm; cases hm
  · have hfuel : src.contents.length < src.contents.length + 1 :=
      Nat.lt_succ_self _
    have hgen : generate_checksum_from_path_with_chunksize hash src alg chunk
        thr (src.contents.length + 1) =
        chunksizeLoop hash src chunk src.contents.length 0 0
          (AdditionalChecksum.new alg) (src.contents.length + 1) := by
      simp only [generate_checksum_from_path_with_chunksize, if_neg hthr]
    rw [hgen]
    exact chunksizeLoop_some hash src chunk hchunk
      (src.contents.length + 1) src.contents.length 0 0
      (AdditionalChecksum.new alg) hfuel

/-- C4 (amended) witness at a concrete input. -/
theorem c4_positive_chunksize_terminates_witness :
    0 < 1 ∧
    ∃ r, generate_checksum_from_path_with_chunksize trivialHash (pureFile [5])
        ChecksumAlgorithm.sha256 1 0 ((pureFile [5]).contents.length + 1) =
          some r ∧ notUnknownOutcome r :=
  ⟨by decide,
   c4_positive_chunksize_terminates trivialHash (pureFile [5])
     ChecksumAlgorithm.sha256 1 0 (by decide)⟩

/-- C5: for every file strictly below the threshold and every configured
chunk size (and fuel), the fixed-chunking path reads the whole file as one
exact-length chunk, performs a single `update` and `finalize`, and returns
that plain digest; the chunk size does not appear in the result. -/
theorem c5_below_threshold_plain_digest (hash : HashFn) (c : List Nat)
    (alg : ChecksumAlgorithm) (chunk thr fuel : Nat) (h : c.length < thr) :
    generate_checksum_from_path_with_chunksize hash (pureFile c) alg chunk
        thr fuel =
      some (Outcome.ok
        (((AdditionalChecksum.new alg).update c).finalize hash).1) := by
  rw [chunksize_below_threshold hash (pureFile c) alg chunk thr fuel h]
  have hread : readExact (pureFile c) 0 0 (pureFile c).contents.length =
      ReadOutcome.ok c := by
    simp [readExact, pureFile, List.take_length]
  rw [hread]

/-- C5 witness at a concrete input. -/
theorem c5_below_threshold_plain_digest_witness :
    ([1, 2] : List Nat).length < 3 ∧
    generate_checksum_from_path_with_chunksize trivialHash (pureFile [1, 2])
        ChecksumAlgorithm.sha256 0 3 0 =
      some (Outcome.ok
        (((AdditionalChecksum.new ChecksumAlgorithm.sha256).update
            [1, 2]).finalize trivialHash).1) :=
  ⟨by decide,
   c5_below_threshold_plain_digest trivialHash [1, 2]
     ChecksumAlgorithm.sha256 0 3 0 (by decide)⟩

/-- C6: calling the explicit-mode function with multipart = false and at
least two declared parts panics with the distinct precondition message —
independently of the file source, hence before any file I/O — and in
particular never returns Ok("UNKNOWN"). -/
theorem c6_single_mode_two_parts_panics (hash : HashFn) (src : FileSource)
    (alg : ChecksumAlgorithm) (parts : List Nat)
    (h2 : 2 ≤ parts.length) :
    generate_checksum_from_path_for_check hash src alg false parts =
      Outcome.panicked
        "multipart is false but object_parts has more than 1 element" ∧
    generate_checksum_from_path_for_check hash src alg false parts ≠
      Outcome.ok "UNKNOWN" := by
  obtain ⟨a, t, rfl⟩ :=
    List.exists_cons_of_ne_nil (l := parts) (by rintro rfl; simp at h2)
  obtain ⟨b, t2, rfl⟩ :=
    List.exists_cons_of_ne_nil (l := t) (by rintro rfl; simp at h2)
  have hguard :
      (!(false : Bool) && decide (2 ≤ (a :: b :: t2).length)) = true := by
    simp only [Bool.not_false, Bool.true_and, decide_eq_true_eq,
      List.length_cons]
    omega
  constructor
  · simp only [generate_checksum_from_path_for_check, List.isEmpty_cons,
      Bool.false_eq_true, if_false, hguard, eq_self_iff_true, if_true]
  · simp only [generate_checksum_from_path_for_check, List.isEmpty_cons,
      Bool.false_eq_true, if_false, hguard, eq_self_iff_true, if_true]
    simp

/-- C6 witness at a concrete input. -/
theorem c6_single_mode_two_parts_panics_witness :
    2 ≤ ([1, 1] : List Nat).length ∧
    (generate_checksum_from_path_for_check trivialHash (pureFile [])
        ChecksumAlgorithm.sha256 false [1, 1] =
      Outcome.panicked
        "multipart is false but object_parts has more than 1 element" ∧
    generate_checksum_from_path_for_check trivialHash (pureFile [])
        ChecksumAlgorithm.sha256 false [1, 1] ≠
      Outcome.ok "UNKNOWN") :=
  ⟨by decide,
   c6_single_mode_two_parts_panics trivialHash (pureFile [])
     ChecksumAlgorithm.sha256 [1, 1] (by decide)⟩

/-- C7: an empty part list makes both declared-parts functions panic with
the precondition message, for every file source, algorithm, threshold and
flag — neither a digest, nor "UNKNOWN", nor an ordinary error. -/
theorem c7_empty_parts_panics (hash : HashFn) (src : FileSource)
    (alg : ChecksumAlgorithm) (thr : Nat) (mp : Bool) :
    generate_checksum_from_path hash src alg [] thr =
      Outcome.panicked "parts_size is empty" ∧
    generate_checksum_from_path_for_check hash src alg mp [] =
      Outcome.panicked "parts_size is empty" :=
  ⟨rfl, rfl⟩

/-- C8: a failure of the first chunk read is classified by its error kind
in both declared-parts paths: UnexpectedEof yields Ok("UNKNOWN"), every
other kind is propagated as Err, never converted to the sentinel. -/
theorem c8_read_error_classification (hash : HashFn) (c : List Nat)
    (alg : ChecksumAlgorithm) (thr n : Nat) (rest : List Nat)
    (k : ErrorKind) :
    (generate_checksum_from_path hash ⟨c, [some k]⟩ alg (n :: rest) thr =
      if k = ErrorKind.unexpectedEof then Outcome.ok "UNKNOWN"
      else Outcome.err k) ∧
    ∀ mp : Bool, (mp = true ∨ (n :: rest).length ≤ 1) →
      generate_checksum_from_path_for_check hash ⟨c, [some k]⟩ alg mp
          (n :: rest) =
        if k = ErrorKind.unexpectedEof then Outcome.ok "UNKNOWN"
        else Outcome.err k := by
  have hread : readExact ⟨c, [some k]⟩ 0 0 n = ReadOutcome.error k := rfl
  constructor
  · by_cases hk : k = ErrorKind.unexpectedEof
    · subst hk
      simp [generate_checksum_from_path, partsLoop, hread]
    · simp [generate_checksum_from_path, partsLoop, hread, hk]
  · intro mp hpre
    have hguard : (!mp && decide (2 ≤ (n :: rest).length)) = false := by
      rcases hpre with h | h
      · subst h; rfl
      · cases mp
        · simp only [Bool.not_false, Bool.true_and, decide_eq_false_iff_not]
          omega
        · rfl
    by_cases hk : k = ErrorKind.unexpectedEof
    · subst hk
      simp only [generate_checksum_from_path_for_check, List.isEmpty_cons,
        Bool.false_eq_true, if_false, hguard, partsLoop, hread]
      simp
    · simp only [generate_checksum_from_path_for_check, List.isEmpty_cons,
        Bool.false_eq_true, if_false, hguard, partsLoop, hread]
      simp [hk]

/-- C8 witness at a concrete input (a non-EOF error kind). -/
theorem c8_read_error_classification_witness :
    (generate_checksum_from_path trivialHash ⟨[], [some (ErrorKind.other 3)]⟩
        ChecksumAlgorithm.sha256 [5] 8 =
      if ErrorKind.other 3 = ErrorKind.unexpectedEof then Outcome.ok "UNKNOWN"
      else Outcome.err (ErrorKind.other 3)) ∧
    ∀ mp : Bool, (mp = true ∨ ([5] : List Nat).length ≤ 1) →
      generate_checksum_from_path_for_check trivialHash
          ⟨[], [some (ErrorKind.other 3)]⟩ ChecksumAlgorithm.sha256 mp [5] =
        if ErrorKind.other 3 = ErrorKind.unexpectedEof then
          Outcome.ok "UNKNOWN"
        else Outcome.err (ErrorKind.other 3) :=
  c8_read_error_classification trivialHash [] ChecksumAlgorithm.sha256 8 5 []
    (ErrorKind.other 3)

/-- C9: for every non-empty plan summing exactly to the file length on a
fault-free file, the derived-mode function returns a digest that is never
the sentinel, and recomputation over the same inputs yields the identical
output. -/
theorem c9_exact_sum_digest_idempotent (hash : HashFn) (c : List Nat)
    (alg : ChecksumAlgorithm) (parts : List Nat) (thr : Nat)
    (hne : parts ≠ []) (hsum : parts.sum = c.length) :
    (∃ s, generate_checksum_from_path hash (pureFile c) alg parts thr =
        Outcome.ok s ∧ s ≠ "UNKNOWN") ∧
    generate_checksum_from_path hash (pureFile c) alg parts thr =
      generate_checksum_from_path hash (pureFile c) alg parts thr := by
  refine ⟨?_, rfl⟩
  rw [generate_checksum_from_path_success hash c alg parts thr hne hsum]
  cases hmp : multipartMode parts thr
  · rcases List.eq_nil_or_concat parts with hnil | ⟨ps, n, hp⟩
    · exact absurd hnil hne
    · subst hp
      refine
        ⟨(runParts hash c 0 (AdditionalChecksum.new alg) "" (ps ++ [n])).2,
          by simp, ?_⟩
      rw [runParts_snd_concat hash c ps n 0 (AdditionalChecksum.new alg) ""
        rfl]
      exact base64Str_ne_unknown _
  · simp only [Bool.not_true, Bool.false_eq_true, if_false]
    exact ⟨_, rfl, finalizeAll_ne_unknown _ _⟩

/-- C9 witness at a concrete input. -/
theorem c9_exact_sum_digest_idempotent_witness :
    (([1] : List Nat) ≠ [] ∧ ([1] : List Nat).sum = ([9] : List Nat).length) ∧
    ((∃ s, generate_checksum_from_path trivialHash (pureFile [9])
        ChecksumAlgorithm.sha256 [1] 8 = Outcome.ok s ∧ s ≠ "UNKNOWN") ∧
    generate_checksum_from_path trivialHash (pureFile [9])
        ChecksumAlgorithm.sha256 [1] 8 =
      generate_checksum_from_path trivialHash (pureFile [9])
        ChecksumAlgorithm.sha256 [1] 8) :=
  ⟨⟨by decide, by decide⟩,
   c9_exact_sum_digest_idempotent trivialHash [9] ChecksumAlgorithm.sha256
     [1] 8 (by decide) (by decide)⟩

/-- C10: a declared part size of 0 is accepted by both declared-parts
functions without any precondition violation: for every file of n bytes the
plan [n, 0] exact-reads both parts, both receive their own finalize, and
the result is the composite checksum with suffix "-2" (never "UNKNOWN", a
plain digest, or an error). -/
theorem c10_zero_size_part_accepted (hash : HashFn) (c : List Nat)
    (alg : ChecksumAlgorithm) (thr : Nat) :
    (generate_checksum_from_path hash (pureFile c) alg [c.length, 0] thr =
      Outcome.ok (base64Str (hash alg (hash alg c ++ hash alg [])) ++ "-" ++
        Nat.repr 2)) ∧
    (generate_checksum_from_path_for_check hash (pureFile c) alg true
        [c.length, 0] =
      Outcome.ok (base64Str (hash alg (hash alg c ++ hash alg [])) ++ "-" ++
        Nat.repr 2)) ∧
    base64Str (hash alg (hash alg c ++ hash alg [])) ++ "-" ++ Nat.repr 2 ≠
      "UNKNOWN" := by
  have hne : ([c.length, 0] : List Nat) ≠ [] := by simp
  have hsum : ([c.length, 0] : List Nat).sum = c.length := by simp
  have hmp : multipartMode [c.length, 0] thr = true := by simp [multipartMode]
  have hrun : runParts hash c 0 (AdditionalChecksum.new alg) ""
      [c.length, 0] =
      (⟨alg, [], hash alg c ++ hash alg [], 2⟩, base64Str (hash alg [])) := by
    simp [runParts, AdditionalChecksum.new, AdditionalChecksum.update,
      AdditionalChecksum.finalize, List.take_length, List.drop_length]
  refine ⟨?_, ?_, ?_⟩
  · rw [generate_checksum_from_path_success hash c alg [c.length, 0] thr hne
      hsum, hmp]
    simp only [Bool.not_true, Bool.false_eq_true, if_false, hrun]
    rfl
  · rw [generate_checksum_for_check_success hash c alg true [c.length, 0] hne
      (Or.inl rfl) hsum]
    simp only [Bool.not_true, Bool.false_eq_true, if_false, hrun]
    rfl
  · exact finalizeAll_ne_unknown ⟨alg, [], hash alg c ++ hash alg [], 2⟩ hash

/-- C3 witness at a concrete input (declared sum 2, real length 3). -/
theorem c3_size_mismatch_returns_unknown_witness :
    (([2] : List Nat) ≠ [] ∧ ([2] : List Nat).sum ≠ ([5, 6, 7] : List Nat).length) ∧
    (generate_checksum_from_path trivialHash (pureFile [5, 6, 7])
        ChecksumAlgorithm.sha256 [2] 8 = Outcome.ok "UNKNOWN" ∧
    ∀ mp : Bool, (mp = true ∨ ([2] : List Nat).length ≤ 1) →
      generate_checksum_from_path_for_check trivialHash (pureFile [5, 6, 7])
          ChecksumAlgorithm.sha256 mp [2] = Outcome.ok "UNKNOWN") :=
  ⟨⟨by decide, by decide⟩,
   c3_size_mismatch_returns_unknown trivialHash [5, 6, 7]
     ChecksumAlgorithm.sha256 [2] 8 (by decide) (by decide)⟩

end S3SyncChecksum
